import Mathlib

/-!
Verification of the auto-moderation core of the discord bot repository:
the per-member spam tracker (`_MessageRecord` in `bot/cogs/moderation.py`)
and the `on_message` auto-moderation pipeline (word filter and spam
detection) of the `Moderation` cog.

Timestamps (Python monotonic floats) are modelled as integers; guild and
user identifiers are integers.  External actuator calls (message delete,
channel purge, member timeout, notice send) are modelled by an environment
that prescribes the outcome of each call, and the handlers return the list
of performed effects together with the exception, if any, that escaped the
handler uncaught.
-/

namespace DiscordBot

/-- Embeds the `_MessageRecord` class: the list of `(content, timestamp)`
pairs for one guild member, in arrival order. -/
structure MessageRecord where
  messages : List (String × Int)
  deriving Repr, DecidableEq

/-- A fresh record, as constructed by the tracker's `defaultdict`. -/
def MessageRecord.empty : MessageRecord := ⟨[]⟩

/-- Embeds `_MessageRecord.add`: unconditionally append the pair. -/
def MessageRecord.add (r : MessageRecord) (content : String) (now : Int) :
    MessageRecord :=
  ⟨r.messages ++ [(content, now)]⟩

/-- Embeds `_MessageRecord.prune`: keep exactly the entries whose timestamp
is at least the cutoff (the source keeps `t >= cutoff`). -/
def MessageRecord.prune (r : MessageRecord) (cutoff : Int) : MessageRecord :=
  ⟨r.messages.filter (fun p => decide (cutoff ≤ p.2))⟩

/-- Embeds `_MessageRecord.identical_count`: the number of stored entries
whose content is equal (exact string equality) to the given content. -/
def MessageRecord.identical_count (r : MessageRecord) (content : String) : Nat :=
  r.messages.countP (fun p => p.1 == content)

/-- Tracker keys: `(guild_id, user_id)`. -/
abbrev TrackerKey := Int × Int

/-- Embeds the `_spam_tracker` defaultdict: a total map from keys to
records, the empty record standing for an absent entry. -/
abbrev SpamTracker := TrackerKey → MessageRecord

/-- The initial tracker: every entry absent. -/
def SpamTracker.empty : SpamTracker := fun _ => MessageRecord.empty

/-- Store a record under a key. -/
def SpamTracker.set (t : SpamTracker) (k : TrackerKey) (r : MessageRecord) :
    SpamTracker :=
  fun k2 => if k2 = k then r else t k2

/-- Embeds `del self._spam_tracker[key]`: the entry becomes absent. -/
def SpamTracker.erase (t : SpamTracker) (k : TrackerKey) : SpamTracker :=
  t.set k MessageRecord.empty

/-- The moderation configuration read from `config.json`:
`word_filter`, `spam_threshold`, `spam_interval`. -/
structure ModConfig where
  word_filter : List String
  spam_threshold : Int
  spam_interval : Int
  deriving Repr, DecidableEq

/-- The author's guild permission flags consulted by the exemption gate. -/
structure Perms where
  manage_messages : Bool
  kick_members : Bool
  ban_members : Bool
  deriving Repr, DecidableEq

/-- The fields of an inbound message event that the pipeline reads. -/
structure Message where
  author_bot : Bool
  in_guild : Bool
  guild_id : Int
  author_id : Int
  perms : Perms
  content : String
  deriving Repr, DecidableEq

/-- The two failure modes of external actuator calls:
`discord.Forbidden` and a non-permission `discord.HTTPException`. -/
inductive ActuatorError where
  | permissionDenied
  | transportError
  deriving Repr, DecidableEq

/-- Outcomes the environment prescribes for the actuator calls a single
message handling may perform (`none` means the call succeeds). -/
structure Env where
  delete_result : Option ActuatorError
  purge_result : Option ActuatorError
  timeout_result : Option ActuatorError
  send_result : Option ActuatorError
  deriving Repr, DecidableEq

/-- The environment in which every actuator call succeeds. -/
def Env.ok : Env := ⟨none, none, none, none⟩

/-- Observable side effects of one message handling, in order. -/
inductive Effect where
  | attempt_delete
  | attempt_purge (limit : Int) (author_only : Bool)
  | attempt_timeout (minutes : Int)
  | send_notice
  | schedule_delete (delay_seconds : Int)
  | log_warning
  deriving Repr, DecidableEq

/-- The action the pipeline decides on for one message. -/
inductive Action where
  | none
  | word_filter_action (word : String)
  | spam_action
  deriving Repr, DecidableEq

/-- The result of handling one message event: the new tracker, the decided
action, the effects performed, and the exception that escaped uncaught. -/
structure StepResult where
  tracker : SpamTracker
  action : Action
  effects : List Effect
  uncaught : Option ActuatorError

/-- Embeds the Python `str.lower()` call as the lowercased character
sequence of a string. -/
def lower_data (s : String) : List Char := s.data.map Char.toLower

/-- Embeds the Python substring test `word.lower() in content_lower`:
contiguous-substring containment of the lowercased word in the lowercased
content. -/
def word_matches (content_lower : List Char) (word : String) : Bool :=
  decide (lower_data word <:+: content_lower)

/-- Embeds the word-filter scan of `on_message`: the first configured word
whose lowercased form occurs in the lowercased content. -/
def find_filter_word (words : List String) (content : String) : Option String :=
  words.find? (word_matches (lower_data content))

/-- Embeds `_handle_word_filter`: try to delete the offending message.  The
source catches only `discord.Forbidden` (logged, pipeline stops); any other
`HTTPException` escapes.  On a successful delete, a notice is sent
(unguarded) and scheduled for deletion after five seconds. -/
def handle_word_filter (env : Env) : List Effect × Option ActuatorError :=
  match env.delete_result with
  | some .permissionDenied => ([.attempt_delete, .log_warning], none)
  | some .transportError => ([.attempt_delete], some .transportError)
  | none =>
    match env.send_result with
    | some e => ([.attempt_delete, .send_notice], some e)
    | none => ([.attempt_delete, .send_notice, .schedule_delete 5], none)

/-- Embeds the side-effect block of `_handle_spam_detection`: purge with
limit `threshold + 5` restricted to the author (only `Forbidden` is caught,
with `pass`), a five-minute timeout (only `Forbidden` is caught, logged),
then the unguarded notice and its scheduled deletion after five seconds. -/
def spam_side_effects (env : Env) (limit : Int) :
    List Effect × Option ActuatorError :=
  match env.purge_result with
  | some .transportError => ([.attempt_purge limit true], some .transportError)
  | _ =>
    match env.timeout_result with
    | some .transportError =>
      ([.attempt_purge limit true, .attempt_timeout 5], some .transportError)
    | tr =>
      let pre := [Effect.attempt_purge limit true, Effect.attempt_timeout 5] ++
        (if tr = some ActuatorError.permissionDenied then [Effect.log_warning] else [])
      match env.send_result with
      | some e => (pre ++ [.send_notice], some e)
      | none => (pre ++ [.send_notice, .schedule_delete 5], none)

/-- Embeds `_handle_spam_detection`: prune with the old window, record the
new message, count identical contents; at or above the threshold run the
side effects and, only when no exception escaped them, delete the tracker
entry (the `del` is the last statement of the handler). -/
def handle_spam_detection (cfg : ModConfig) (env : Env) (tracker : SpamTracker)
    (msg : Message) (now : Int) : StepResult :=
  let key : TrackerKey := (msg.guild_id, msg.author_id)
  let r := ((tracker key).prune (now - cfg.spam_interval)).add msg.content now
  let t1 := tracker.set key r
  if cfg.spam_threshold ≤ (r.identical_count msg.content : Int) then
    match spam_side_effects env (cfg.spam_threshold + 5) with
    | (effs, some e) => ⟨t1, .spam_action, effs, some e⟩
    | (effs, none) => ⟨t1.erase key, .spam_action, effs, none⟩
  else
    ⟨t1, .none, [], none⟩

/-- Embeds the `on_message` listener: bots and direct messages are ignored,
authors holding a moderator permission are exempt, then the word filter
runs and short-circuits, otherwise spam detection runs. -/
def on_message (cfg : ModConfig) (env : Env) (tracker : SpamTracker)
    (msg : Message) (now : Int) : StepResult :=
  if msg.author_bot || !msg.in_guild then ⟨tracker, .none, [], none⟩
  else if msg.perms.manage_messages || msg.perms.kick_members ||
      msg.perms.ban_members then ⟨tracker, .none, [], none⟩
  else
    match find_filter_word cfg.word_filter msg.content with
    | some w =>
      let res := handle_word_filter env
      ⟨tracker, .word_filter_action w, res.1, res.2⟩
    | none => handle_spam_detection cfg env tracker msg now

/-- The exemption predicate of the first two guards of `on_message`. -/
def exempt (msg : Message) : Bool :=
  msg.author_bot || !msg.in_guild || msg.perms.manage_messages ||
    msg.perms.kick_members || msg.perms.ban_members

/-- Handle a list of timestamped message events in order, collecting the
decided actions. -/
def run (cfg : ModConfig) (env : Env) :
    SpamTracker → List (Message × Int) → SpamTracker × List Action
  | tracker, [] => (tracker, [])
  | tracker, (msg, now) :: rest =>
    let res := on_message cfg env tracker msg now
    let next := run cfg env res.tracker rest
    (next.1, res.action :: next.2)

/-- The reachable-state invariant of the tracker: every present entry has
every identical count strictly below the spam threshold. -/
def TrackerInv (threshold : Int) (t : SpamTracker) : Prop :=
  ∀ k : TrackerKey, (t k).messages ≠ [] →
    ∀ c : String, ((t k).identical_count c : Int) < threshold

/-- A non-exempt guild message from the given author with the given
content. -/
def plain_msg (g a : Int) (c : String) : Message :=
  ⟨false, true, g, a, ⟨false, false, false⟩, c⟩

/-- Adding a message increments the identical count of its own content. -/
theorem identical_count_add_same (r : MessageRecord) (c : String) (t : Int) :
    (r.add c t).identical_count c = r.identical_count c + 1 := by
  simp [MessageRecord.add, MessageRecord.identical_count]

/-- Adding a message leaves the identical count of any other content
unchanged (counting is exact string equality). -/
theorem identical_count_add_ne (r : MessageRecord) (c c2 : String) (t : Int)
    (h : c ≠ c2) :
    (r.add c t).identical_count c2 = r.identical_count c2 := by
  simp [MessageRecord.add, MessageRecord.identical_count, h]

/-- Pruning can only lower an identical count. -/
theorem identical_count_prune_le (r : MessageRecord) (cutoff : Int) (c : String) :
    (r.prune cutoff).identical_count c ≤ r.identical_count c := by
  unfold MessageRecord.identical_count MessageRecord.prune
  exact List.Sublist.countP_le _ (List.filter_sublist _)

/-- For a non-exempt message matching no filter word, handling is exactly
spam detection. -/
theorem on_message_spam_path {cfg : ModConfig} {env : Env} {tracker : SpamTracker}
    {msg : Message} {now : Int} (hex : exempt msg = false)
    (hwf : find_filter_word cfg.word_filter msg.content = none) :
    on_message cfg env tracker msg now = handle_spam_detection cfg env tracker msg now := by
  simp only [exempt, Bool.or_eq_false_iff, Bool.not_eq_false'] at hex
  obtain ⟨⟨⟨⟨hb, hg⟩, hm⟩, hk⟩, hbn⟩ := hex
  simp [on_message, hb, hg, hm, hk, hbn, hwf]

/-- For a non-exempt message matching a filter word, handling is exactly the
word-filter handler, leaving the tracker untouched. -/
theorem on_message_filter_path {cfg : ModConfig} {env : Env} {tracker : SpamTracker}
    {msg : Message} {now : Int} {w : String} (hex : exempt msg = false)
    (hwf : find_filter_word cfg.word_filter msg.content = some w) :
    on_message cfg env tracker msg now =
      ⟨tracker, .word_filter_action w, (handle_word_filter env).1,
        (handle_word_filter env).2⟩ := by
  simp only [exempt, Bool.or_eq_false_iff, Bool.not_eq_false'] at hex
  obtain ⟨⟨⟨⟨hb, hg⟩, hm⟩, hk⟩, hbn⟩ := hex
  simp [on_message, hb, hg, hm, hk, hbn, hwf]

/-- An exempt message is a no-op: no action, no effects, tracker unchanged. -/
theorem on_message_exempt {cfg : ModConfig} {env : Env} {tracker : SpamTracker}
    {msg : Message} {now : Int} (hex : exempt msg = true) :
    on_message cfg env tracker msg now = ⟨tracker, Action.none, [], none⟩ := by
  unfold on_message
  cases hb : msg.author_bot <;> cases hg : msg.in_guild <;>
    cases hm : msg.perms.manage_messages <;>
    cases hk : msg.perms.kick_members <;>
    cases hbn : msg.perms.ban_members <;>
    simp_all [exempt]

/-- Evaluating a tracker update at the written key. -/
theorem tracker_set_same (t : SpamTracker) (k : TrackerKey) (r : MessageRecord) :
    t.set k r k = r := by
  simp [SpamTracker.set]

/-- Evaluating a tracker update at a different key. -/
theorem tracker_set_other (t : SpamTracker) {k k2 : TrackerKey}
    (r : MessageRecord) (h : k2 ≠ k) : t.set k r k2 = t k2 := by
  simp [SpamTracker.set, h]

/-- Claim C2: `prune(cutoff)` removes exactly the stored entries whose
timestamp is strictly below the cutoff: every surviving entry has timestamp
at least the cutoff, the survivors are a sublist of the original entries
(relative order preserved), every entry with timestamp at least the cutoff
survives with its exact multiplicity, and every entry below the cutoff is
gone. -/
theorem C2_prune_window (r : MessageRecord) (cutoff : Int) :
    (∀ p ∈ (r.prune cutoff).messages, cutoff ≤ p.2) ∧
    (r.prune cutoff).messages.Sublist r.messages ∧
    (∀ p : String × Int, cutoff ≤ p.2 →
      (r.prune cutoff).messages.count p = r.messages.count p) ∧
    (∀ p : String × Int, p.2 < cutoff → p ∉ (r.prune cutoff).messages) := by
  refine ⟨?_, List.filter_sublist _, ?_, ?_⟩
  · intro p hp
    simpa using (List.mem_filter.mp hp).2
  · intro p hp
    exact List.count_filter (by simpa using hp)
  · intro p hp hmem
    have h2 : cutoff ≤ p.2 := by simpa using (List.mem_filter.mp hmem).2
    omega

/-- Witness for C2 at a concrete record and cutoff. -/
theorem C2_prune_window_witness :
    ∀ p ∈ ((⟨[("a", 0), ("b", 5)]⟩ : MessageRecord).prune 3).messages, 3 ≤ p.2 :=
  (C2_prune_window ⟨[("a", 0), ("b", 5)]⟩ 3).1

/-- Claim C4: a message from a bot author, a message outside a guild, or a
message whose author holds manage-messages, kick-members or ban-members
returns immediately: no action, no effects, no uncaught error, and the spam
tracker completely unchanged. -/
theorem C4_exemption_gate (cfg : ModConfig) (env : Env) (tracker : SpamTracker)
    (msg : Message) (now : Int) (hex : exempt msg = true) :
    on_message cfg env tracker msg now = ⟨tracker, Action.none, [], none⟩ :=
  on_message_exempt hex

/-- Witness for C4: a bot message with filter-matching, threshold-exceeding
content is ignored entirely. -/
theorem C4_exemption_gate_witness :
    on_message ⟨["x"], 1, 10⟩ Env.ok SpamTracker.empty
      ⟨true, true, 1, 2, ⟨true, false, false⟩, "x"⟩ 0 =
      ⟨SpamTracker.empty, Action.none, [], none⟩ :=
  C4_exemption_gate _ _ _ _ _ (by decide)

/-- The word-filter scan returns the first word of the configured list that
matches the content. -/
theorem find_filter_word_first {pre post : List String} {w content : String}
    (hpre : ∀ v ∈ pre, word_matches (lower_data content) v = false)
    (hw : word_matches (lower_data content) w = true) :
    find_filter_word (pre ++ w :: post) content = some w := by
  induction pre with
  | nil =>
    simp only [List.nil_append, find_filter_word]
    exact List.find?_cons_of_pos _ hw
  | cons v vs ih =>
    have hv : word_matches (lower_data content) v = false := hpre v (by simp)
    simp only [find_filter_word, List.cons_append] at ih ⊢
    rw [List.find?_cons_of_neg _ (by simp [hv])]
    exact ih (fun u hu => hpre u (by simp [hu]))

/-- The word-filter handler performs none of the spam side effects. -/
theorem handle_word_filter_no_spam_effects (env : Env) :
    (∀ l b, Effect.attempt_purge l b ∉ (handle_word_filter env).1) ∧
    (∀ m, Effect.attempt_timeout m ∉ (handle_word_filter env).1) := by
  obtain ⟨d, p, t, s⟩ := env
  rcases d with _ | (_ | _) <;> rcases s with _ | (_ | _) <;>
    refine ⟨?_, ?_⟩ <;> intros <;> simp [handle_word_filter]

/-- Claim C5: a non-exempt message whose content matches a configured filter
word produces only the word-filter action for the first matching word in
configured list order; spam detection is never reached: the tracker is left
completely unchanged and no spam side effect is attempted. -/
theorem C5_word_filter_precedence (cfg : ModConfig) (env : Env)
    (tracker : SpamTracker) (msg : Message) (now : Int)
    (pre post : List String) (w : String)
    (hcfg : cfg.word_filter = pre ++ w :: post)
    (hpre : ∀ v ∈ pre, word_matches (lower_data msg.content) v = false)
    (hw : word_matches (lower_data msg.content) w = true)
    (hex : exempt msg = false) :
    (on_message cfg env tracker msg now).action = Action.word_filter_action w ∧
    (on_message cfg env tracker msg now).tracker = tracker ∧
    (∀ l b, Effect.attempt_purge l b ∉ (on_message cfg env tracker msg now).effects) ∧
    (∀ m, Effect.attempt_timeout m ∉ (on_message cfg env tracker msg now).effects) := by
  have hfind : find_filter_word cfg.word_filter msg.content = some w := by
    rw [hcfg]; exact find_filter_word_first hpre hw
  rw [on_message_filter_path hex hfind]
  exact ⟨rfl, rfl, (handle_word_filter_no_spam_effects env).1,
    (handle_word_filter_no_spam_effects env).2⟩

/-- Witness for C5: content matching both the filter word and the spam
pattern yields only the word-filter action and an untouched tracker. -/
theorem C5_word_filter_precedence_witness :
    (on_message ⟨["bad"], 1, 10⟩ Env.ok SpamTracker.empty
        (plain_msg 1 2 "so BAD") 0).action = Action.word_filter_action "bad" ∧
    (on_message ⟨["bad"], 1, 10⟩ Env.ok SpamTracker.empty
        (plain_msg 1 2 "so BAD") 0).tracker = SpamTracker.empty :=
  ⟨(C5_word_filter_precedence ⟨["bad"], 1, 10⟩ Env.ok SpamTracker.empty
      (plain_msg 1 2 "so BAD") 0 [] [] "bad" rfl (by simp) (by decide) (by decide)).1,
   (C5_word_filter_precedence ⟨["bad"], 1, 10⟩ Env.ok SpamTracker.empty
      (plain_msg 1 2 "so BAD") 0 [] [] "bad" rfl (by simp) (by decide) (by decide)).2.1⟩

/-- Claim C6: word-filter matching is case-insensitive substring matching
(the lowercased word must occur in the lowercased content, so "spam"
matches "This is SPAM"), whereas spam duplicate counting is exact
case-sensitive string equality ("Hello" and "hello" are distinct). -/
theorem C6_case_sensitivity :
    (find_filter_word ["spam"] "This is SPAM" = some "spam") ∧
    (∀ w c : String, (find_filter_word [w] c).isSome ↔
      lower_data w <:+: lower_data c) ∧
    (∀ (r : MessageRecord) (t : Int),
      (r.add "Hello" t).identical_count "hello" = r.identical_count "hello") ∧
    ((MessageRecord.empty.add "Hello" 0).identical_count "Hello" = 1) ∧
    ((MessageRecord.empty.add "Hello" 0).identical_count "hello" = 0) := by
  refine ⟨by decide, ?_, ?_, by decide, by decide⟩
  · intro w c
    rw [find_filter_word, List.find?_isSome]
    simp [word_matches]
  · intro r t
    exact identical_count_add_ne r "Hello" "hello" t (by decide)

/-- Claim C10: if the configured word-filter list contains the empty string
then every non-exempt guild message matches the filter (empty-substring
semantics) — and in general any configured word whose lowercased form
occurs in the content forces the word-filter action, so spam detection is
never reached and the tracker is untouched. -/
theorem C10_empty_filter_word (cfg : ModConfig) (env : Env)
    (tracker : SpamTracker) (msg : Message) (now : Int)
    (hex : exempt msg = false)
    (hmem : "" ∈ cfg.word_filter ∨
      ∃ w ∈ cfg.word_filter, lower_data w <:+: lower_data msg.content) :
    (∃ w2, (on_message cfg env tracker msg now).action =
      Action.word_filter_action w2) ∧
    (on_message cfg env tracker msg now).tracker = tracker ∧
    (∀ l b, Effect.attempt_purge l b ∉ (on_message cfg env tracker msg now).effects) ∧
    (∀ m, Effect.attempt_timeout m ∉ (on_message cfg env tracker msg now).effects) := by
  have hmatch : ∃ w ∈ cfg.word_filter, word_matches (lower_data msg.content) w = true := by
    rcases hmem with hnil | ⟨w, hwmem, hwsub⟩
    · refine ⟨"", hnil, ?_⟩
      have hempty : lower_data "" = [] := rfl
      simp [word_matches, hempty]
    · exact ⟨w, hwmem, by simp [word_matches, hwsub]⟩
  have hsome : (find_filter_word cfg.word_filter msg.content).isSome := by
    rw [find_filter_word, List.find?_isSome]
    obtain ⟨w, hwmem, hw⟩ := hmatch
    exact ⟨w, hwmem, hw⟩
  obtain ⟨w2, hfind⟩ := Option.isSome_iff_exists.mp hsome
  rw [on_message_filter_path hex hfind]
  exact ⟨⟨w2, rfl⟩, rfl, (handle_word_filter_no_spam_effects env).1,
    (handle_word_filter_no_spam_effects env).2⟩

/-- Witness for C10: with the empty string configured, an arbitrary message
is caught by the word filter and the tracker stays empty. -/
theorem C10_empty_filter_word_witness :
    (∃ w2, (on_message ⟨[""], 1, 10⟩ Env.ok SpamTracker.empty
      (plain_msg 1 2 "anything at all") 0).action = Action.word_filter_action w2) ∧
    (on_message ⟨[""], 1, 10⟩ Env.ok SpamTracker.empty
      (plain_msg 1 2 "anything at all") 0).tracker = SpamTracker.empty :=
  ⟨(C10_empty_filter_word ⟨[""], 1, 10⟩ Env.ok SpamTracker.empty
      (plain_msg 1 2 "anything at all") 0 (by decide) (Or.inl (by simp))).1,
   (C10_empty_filter_word ⟨[""], 1, 10⟩ Env.ok SpamTracker.empty
      (plain_msg 1 2 "anything at all") 0 (by decide) (Or.inl (by simp))).2.1⟩

/-- Counterexample to claim C7 as stated: a transport-level failure of the
message delete is not caught by the word-filter handler — it escapes to the
caller, so not every delete failure is caught and logged. -/
theorem C7_counterexample :
    (on_message ⟨["bad"], 5, 10⟩
        ⟨some ActuatorError.transportError, none, none, none⟩
        SpamTracker.empty (plain_msg 1 2 "bad stuff") 0).uncaught =
      some ActuatorError.transportError := by
  rfl

/-- Claim C7 amended: on a word-filter action, a permission failure of the
delete is caught and logged and the pipeline stops there (no notice after a
failed delete); a transport failure of the delete escapes to the caller
uncaught; when the delete succeeds (and the notice call itself succeeds)
the notice is posted and scheduled for removal after five seconds and
nothing escapes. -/
theorem C7_word_filter_error_handling (cfg : ModConfig) (env : Env)
    (tracker : SpamTracker) (msg : Message) (now : Int) (w : String)
    (hex : exempt msg = false)
    (hfind : find_filter_word cfg.word_filter msg.content = some w) :
    (env.delete_result = some ActuatorError.permissionDenied →
      (on_message cfg env tracker msg now).effects =
        [Effect.attempt_delete, Effect.log_warning] ∧
      (on_message cfg env tracker msg now).uncaught = none) ∧
    (env.delete_result = some ActuatorError.transportError →
      (on_message cfg env tracker msg now).effects = [Effect.attempt_delete] ∧
      (on_message cfg env tracker msg now).uncaught =
        some ActuatorError.transportError) ∧
    (env.delete_result = none → env.send_result = none →
      (on_message cfg env tracker msg now).effects =
        [Effect.attempt_delete, Effect.send_notice, Effect.schedule_delete 5] ∧
      (on_message cfg env tracker msg now).uncaught = none) := by
  rw [on_message_filter_path hex hfind]
  refine ⟨fun h => ?_, fun h => ?_, fun h hs => ?_⟩ <;>
    simp [handle_word_filter, h]
  simp [hs]

/-- Witness for C7: the permission-denied case at concrete inputs. -/
theorem C7_word_filter_error_handling_witness :
    (on_message ⟨["bad"], 5, 10⟩
        ⟨some ActuatorError.permissionDenied, none, none, none⟩
        SpamTracker.empty (plain_msg 1 2 "bad stuff") 0).effects =
      [Effect.attempt_delete, Effect.log_warning] ∧
    (on_message ⟨["bad"], 5, 10⟩
        ⟨some ActuatorError.permissionDenied, none, none, none⟩
        SpamTracker.empty (plain_msg 1 2 "bad stuff") 0).uncaught = none :=
  (C7_word_filter_error_handling ⟨["bad"], 5, 10⟩
      ⟨some ActuatorError.permissionDenied, none, none, none⟩
      SpamTracker.empty (plain_msg 1 2 "bad stuff") 0 "bad"
      (by decide) (by decide)).1 rfl

/-- The identical count computed by a spam check is one (the newly recorded
message) plus the previously stored identical messages surviving the
window. -/
theorem identical_count_after_update (r : MessageRecord) (c : String)
    (now cutoff : Int) :
    ((r.prune cutoff).add c now).identical_count c =
      r.messages.countP (fun p => p.1 == c && decide (cutoff ≤ p.2)) + 1 := by
  rw [identical_count_add_same]
  unfold MessageRecord.identical_count MessageRecord.prune
  rw [List.countP_filter]

/-- Reduction of spam detection when the post-record count stays below the
threshold: the updated record is stored, no action, no effects. -/
theorem handle_spam_detection_no_trigger {cfg : ModConfig} {env : Env}
    {tracker : SpamTracker} {msg : Message} {now : Int}
    (h : ¬ cfg.spam_threshold ≤
      ((((tracker (msg.guild_id, msg.author_id)).prune
          (now - cfg.spam_interval)).add msg.content now).identical_count
        msg.content : Int)) :
    handle_spam_detection cfg env tracker msg now =
      ⟨tracker.set (msg.guild_id, msg.author_id)
          (((tracker (msg.guild_id, msg.author_id)).prune
            (now - cfg.spam_interval)).add msg.content now),
        Action.none, [], none⟩ := by
  simp only [handle_spam_detection]
  rw [if_neg h]

/-- Reduction of spam detection on trigger with clean side effects: the
entry is erased. -/
theorem handle_spam_detection_trigger_ok {cfg : ModConfig} {env : Env}
    {tracker : SpamTracker} {msg : Message} {now : Int}
    (h : cfg.spam_threshold ≤
      ((((tracker (msg.guild_id, msg.author_id)).prune
          (now - cfg.spam_interval)).add msg.content now).identical_count
        msg.content : Int))
    (hok : (spam_side_effects env (cfg.spam_threshold + 5)).2 = none) :
    handle_spam_detection cfg env tracker msg now =
      ⟨(tracker.set (msg.guild_id, msg.author_id)
          (((tracker (msg.guild_id, msg.author_id)).prune
            (now - cfg.spam_interval)).add msg.content now)).erase
          (msg.guild_id, msg.author_id),
        Action.spam_action, (spam_side_effects env (cfg.spam_threshold + 5)).1,
        none⟩ := by
  simp only [handle_spam_detection]
  rw [if_pos h]
  rcases hse : spam_side_effects env (cfg.spam_threshold + 5) with ⟨effs, err⟩
  rw [hse] at hok
  simp only at hok
  subst hok
  rfl

/-- Reduction of spam detection on trigger when a side effect escapes
uncaught: the entry is NOT erased (the updated record stays stored). -/
theorem handle_spam_detection_trigger_err {cfg : ModConfig} {env : Env}
    {tracker : SpamTracker} {msg : Message} {now : Int} {e : ActuatorError}
    (h : cfg.spam_threshold ≤
      ((((tracker (msg.guild_id, msg.author_id)).prune
          (now - cfg.spam_interval)).add msg.content now).identical_count
        msg.content : Int))
    (herr : (spam_side_effects env (cfg.spam_threshold + 5)).2 = some e) :
    handle_spam_detection cfg env tracker msg now =
      ⟨tracker.set (msg.guild_id, msg.author_id)
          (((tracker (msg.guild_id, msg.author_id)).prune
            (now - cfg.spam_interval)).add msg.content now),
        Action.spam_action, (spam_side_effects env (cfg.spam_threshold + 5)).1,
        some e⟩ := by
  simp only [handle_spam_detection]
  rw [if_pos h]
  rcases hse : spam_side_effects env (cfg.spam_threshold + 5) with ⟨effs, err⟩
  rw [hse] at herr
  simp only at herr
  subst herr
  rfl

/-- For a non-exempt, non-filtered message, a spam action fires exactly when
the threshold is at or below the post-record identical count. -/
theorem spam_action_iff {cfg : ModConfig} {env : Env} {tracker : SpamTracker}
    {msg : Message} {now : Int}
    (hex : exempt msg = false)
    (hwf : find_filter_word cfg.word_filter msg.content = none) :
    ((on_message cfg env tracker msg now).action = Action.spam_action ↔
      cfg.spam_threshold ≤
        ((((tracker (msg.guild_id, msg.author_id)).prune
            (now - cfg.spam_interval)).add msg.content now).identical_count
          msg.content : Int)) := by
  rw [on_message_spam_path hex hwf]
  by_cases h : cfg.spam_threshold ≤
      ((((tracker (msg.guild_id, msg.author_id)).prune
          (now - cfg.spam_interval)).add msg.content now).identical_count
        msg.content : Int)
  · rcases hse : (spam_side_effects env (cfg.spam_threshold + 5)).2 with _ | e
    · rw [handle_spam_detection_trigger_ok h hse]
      simpa using h
    · rw [handle_spam_detection_trigger_err h hse]
      simpa using h
  · rw [handle_spam_detection_no_trigger h]
    simpa using h

/-- Claim C3: one spam check performs prune (with the old window), then
record, then count: a spam action fires exactly when the threshold is at or
below one (the newly recorded message, which always survives the prune of
its own check) plus the number of previously stored identical messages
still inside the window; when every stored identical message has expired,
the identical count is exactly one and, for a threshold of at least two, no
action fires. -/
theorem C3_prune_record_count_order (cfg : ModConfig) (env : Env)
    (tracker : SpamTracker) (msg : Message) (now : Int)
    (hex : exempt msg = false)
    (hwf : find_filter_word cfg.word_filter msg.content = none) :
    ((on_message cfg env tracker msg now).action = Action.spam_action ↔
      cfg.spam_threshold ≤
        ((tracker (msg.guild_id, msg.author_id)).messages.countP
          (fun p => p.1 == msg.content &&
            decide (now - cfg.spam_interval ≤ p.2)) : Int) + 1) ∧
    ((on_message cfg env tracker msg now).action ≠ Action.spam_action →
      (msg.content, now) ∈
        ((on_message cfg env tracker msg now).tracker
          (msg.guild_id, msg.author_id)).messages) ∧
    ((∀ p ∈ (tracker (msg.guild_id, msg.author_id)).messages,
        p.1 = msg.content → p.2 < now - cfg.spam_interval) →
      2 ≤ cfg.spam_threshold →
      (on_message cfg env tracker msg now).action = Action.none ∧
      ((on_message cfg env tracker msg now).tracker
        (msg.guild_id, msg.author_id)).identical_count msg.content = 1) := by
  refine ⟨?_, ?_, ?_⟩
  · rw [spam_action_iff hex hwf, identical_count_after_update]
    push_cast
    exact Iff.rfl
  · intro hne
    by_cases h : cfg.spam_threshold ≤
        ((((tracker (msg.guild_id, msg.author_id)).prune
            (now - cfg.spam_interval)).add msg.content now).identical_count
          msg.content : Int)
    · exact absurd ((spam_action_iff hex hwf).mpr h) hne
    · rw [on_message_spam_path hex hwf, handle_spam_detection_no_trigger h]
      simp [SpamTracker.set, MessageRecord.add]
  · intro hexp hth
    have hzero : (tracker (msg.guild_id, msg.author_id)).messages.countP
        (fun p => p.1 == msg.content &&
          decide (now - cfg.spam_interval ≤ p.2)) = 0 := by
      rw [List.countP_eq_zero]
      intro p hp
      by_cases hc : p.1 = msg.content
      · simp only [hc, beq_self_eq_true, Bool.true_and, decide_eq_true_eq,
          not_le]
        exact hexp p hp hc
      · simp [hc]
    have hcount : ((((tracker (msg.guild_id, msg.author_id)).prune
        (now - cfg.spam_interval)).add msg.content now).identical_count
          msg.content) = 1 := by
      rw [identical_count_after_update, hzero]
    have hno : ¬ cfg.spam_threshold ≤
        ((((tracker (msg.guild_id, msg.author_id)).prune
            (now - cfg.spam_interval)).add msg.content now).identical_count
          msg.content : Int) := by
      rw [hcount]
      push_cast
      omega
    rw [on_message_spam_path hex hwf, handle_spam_detection_no_trigger hno]
    refine ⟨rfl, ?_⟩
    simpa [SpamTracker.set] using hcount

/-- Witness for C3, matching Scenario C of the spec: with interval 10, after
"hi" at time 0 and "hi" again at time 15, the stale entry is pruned, the
identical count is one, and no action fires. -/
theorem C3_prune_record_count_order_witness :
    (on_message ⟨[], 3, 10⟩ Env.ok
        (SpamTracker.empty.set (1, 2) ⟨[("hi", 0)]⟩)
        (plain_msg 1 2 "hi") 15).action = Action.none ∧
    ((on_message ⟨[], 3, 10⟩ Env.ok
        (SpamTracker.empty.set (1, 2) ⟨[("hi", 0)]⟩)
        (plain_msg 1 2 "hi") 15).tracker (1, 2)).identical_count "hi" = 1 :=
  (C3_prune_record_count_order ⟨[], 3, 10⟩ Env.ok
      (SpamTracker.empty.set (1, 2) ⟨[("hi", 0)]⟩)
      (plain_msg 1 2 "hi") 15 (by decide) rfl).2.2 (by decide) (by decide)

/-- The spam side effects always begin with the author-restricted bulk
delete using the given limit. -/
theorem spam_side_effects_head (env : Env) (limit : Int) :
    (spam_side_effects env limit).1.head? =
      some (Effect.attempt_purge limit true) := by
  obtain ⟨d, p, t, s⟩ := env
  rcases p with _ | (_ | _) <;> rcases t with _ | (_ | _) <;>
    rcases s with _ | (_ | _) <;> simp [spam_side_effects]

/-- Counterexample to claim C8 as stated: with the threshold reached, a
transport-level failure of the bulk delete prevents the mute attempt,
escapes to the caller uncaught, and prevents the tracker reset. -/
theorem C8_counterexample :
    (on_message ⟨[], 1, 10⟩
        ⟨none, some ActuatorError.transportError, none, none⟩
        SpamTracker.empty (plain_msg 1 2 "x") 0).effects =
      [Effect.attempt_purge 6 true] ∧
    (on_message ⟨[], 1, 10⟩
        ⟨none, some ActuatorError.transportError, none, none⟩
        SpamTracker.empty (plain_msg 1 2 "x") 0).uncaught =
      some ActuatorError.transportError ∧
    ((on_message ⟨[], 1, 10⟩
        ⟨none, some ActuatorError.transportError, none, none⟩
        SpamTracker.empty (plain_msg 1 2 "x") 0).tracker (1, 2)).messages =
      [("x", 0)] :=
  ⟨rfl, rfl, rfl⟩

/-- Claim C8 amended: when a spam action fires, the bulk delete is attempted
first with limit threshold + 5 restricted to the author; a permission
failure of the delete is silently swallowed (not logged) and does not
prevent the mute attempt; a permission failure of the mute is logged and
does not prevent the notice; but a transport failure of the delete or of
the mute escapes uncaught and skips the remaining side effects, any failure
of the notice escapes uncaught, every escaped failure prevents the tracker
reset, and the reset happens exactly on a clean run. -/
theorem C8_spam_error_handling (cfg : ModConfig) (env : Env)
    (tracker : SpamTracker) (msg : Message) (now : Int)
    (hex : exempt msg = false)
    (hwf : find_filter_word cfg.word_filter msg.content = none)
    (htrig : (on_message cfg env tracker msg now).action = Action.spam_action) :
    ((on_message cfg env tracker msg now).effects.head? =
      some (Effect.attempt_purge (cfg.spam_threshold + 5) true)) ∧
    (env.purge_result = some ActuatorError.permissionDenied →
      env.timeout_result = none → env.send_result = none →
      (on_message cfg env tracker msg now).effects =
        [Effect.attempt_purge (cfg.spam_threshold + 5) true,
         Effect.attempt_timeout 5, Effect.send_notice,
         Effect.schedule_delete 5] ∧
      (on_message cfg env tracker msg now).uncaught = none) ∧
    (env.purge_result = none →
      env.timeout_result = some ActuatorError.permissionDenied →
      env.send_result = none →
      (on_message cfg env tracker msg now).effects =
        [Effect.attempt_purge (cfg.spam_threshold + 5) true,
         Effect.attempt_timeout 5, Effect.log_warning, Effect.send_notice,
         Effect.schedule_delete 5] ∧
      (on_message cfg env tracker msg now).uncaught = none) ∧
    (env.purge_result = some ActuatorError.transportError →
      (on_message cfg env tracker msg now).effects =
        [Effect.attempt_purge (cfg.spam_threshold + 5) true] ∧
      (on_message cfg env tracker msg now).uncaught =
        some ActuatorError.transportError) ∧
    (env.purge_result ≠ some ActuatorError.transportError →
      env.timeout_result = some ActuatorError.transportError →
      (on_message cfg env tracker msg now).effects =
        [Effect.attempt_purge (cfg.spam_threshold + 5) true,
         Effect.attempt_timeout 5] ∧
      (on_message cfg env tracker msg now).uncaught =
        some ActuatorError.transportError) ∧
    (∀ e, env.purge_result ≠ some ActuatorError.transportError →
      env.timeout_result ≠ some ActuatorError.transportError →
      env.send_result = some e →
      (on_message cfg env tracker msg now).uncaught = some e) ∧
    (∀ e, (on_message cfg env tracker msg now).uncaught = some e →
      ((on_message cfg env tracker msg now).tracker
        (msg.guild_id, msg.author_id)).messages ≠ []) ∧
    ((on_message cfg env tracker msg now).uncaught = none →
      ((on_message cfg env tracker msg now).tracker
        (msg.guild_id, msg.author_id)).messages = []) := by
  have hcount := (spam_action_iff hex hwf).mp htrig
  rw [on_message_spam_path hex hwf]
  refine ⟨?_, ?_, ?_, ?_, ?_, ?_, ?_, ?_⟩
  · rcases hse : (spam_side_effects env (cfg.spam_threshold + 5)).2 with _ | e
    · rw [handle_spam_detection_trigger_ok hcount hse]
      exact spam_side_effects_head env _
    · rw [handle_spam_detection_trigger_err hcount hse]
      exact spam_side_effects_head env _
  · intro h1 h2 h3
    have hval : spam_side_effects env (cfg.spam_threshold + 5) =
        ([Effect.attempt_purge (cfg.spam_threshold + 5) true,
          Effect.attempt_timeout 5, Effect.send_notice,
          Effect.schedule_delete 5], none) := by
      simp [spam_side_effects, h1, h2, h3]
    rw [handle_spam_detection_trigger_ok hcount (by rw [hval])]
    exact ⟨by rw [hval], rfl⟩
  · intro h1 h2 h3
    have hval : spam_side_effects env (cfg.spam_threshold + 5) =
        ([Effect.attempt_purge (cfg.spam_threshold + 5) true,
          Effect.attempt_timeout 5, Effect.log_warning, Effect.send_notice,
          Effect.schedule_delete 5], none) := by
      simp [spam_side_effects, h1, h2, h3]
    rw [handle_spam_detection_trigger_ok hcount (by rw [hval])]
    exact ⟨by rw [hval], rfl⟩
  · intro h1
    have hval : spam_side_effects env (cfg.spam_threshold + 5) =
        ([Effect.attempt_purge (cfg.spam_threshold + 5) true],
         some ActuatorError.transportError) := by
      simp [spam_side_effects, h1]
    rw [handle_spam_detection_trigger_err hcount (by rw [hval])]
    exact ⟨by rw [hval], rfl⟩
  · intro h1 h2
    have hval : spam_side_effects env (cfg.spam_threshold + 5) =
        ([Effect.attempt_purge (cfg.spam_threshold + 5) true,
          Effect.attempt_timeout 5], some ActuatorError.transportError) := by
      rcases hp : env.purge_result with _ | (_ | _)
      · simp [spam_side_effects, hp, h2]
      · simp [spam_side_effects, hp, h2]
      · exact absurd hp h1
    rw [handle_spam_detection_trigger_err hcount (by rw [hval])]
    exact ⟨by rw [hval], rfl⟩
  · intro e h1 h2 h3
    have hval : (spam_side_effects env (cfg.spam_threshold + 5)).2 = some e := by
      rcases hp : env.purge_result with _ | (_ | _) <;>
        rcases ht : env.timeout_result with _ | (_ | _) <;>
        first
          | exact absurd hp h1
          | exact absurd ht h2
          | simp [spam_side_effects, hp, ht, h3]
    rw [handle_spam_detection_trigger_err hcount hval]
  · intro e hu
    rcases hse : (spam_side_effects env (cfg.spam_threshold + 5)).2 with _ | e2
    · rw [handle_spam_detection_trigger_ok hcount hse] at hu
      simp at hu
    · rw [handle_spam_detection_trigger_err hcount hse]
      simp [SpamTracker.set, MessageRecord.add]
  · intro hu
    rcases hse : (spam_side_effects env (cfg.spam_threshold + 5)).2 with _ | e2
    · rw [handle_spam_detection_trigger_ok hcount hse]
      simp [SpamTracker.erase, SpamTracker.set, MessageRecord.empty]
    · rw [handle_spam_detection_trigger_err hcount hse] at hu
      simp at hu

/-- Witness for C8: in a triggering run, the purge with limit threshold + 5
leads the side effects. -/
theorem C8_spam_error_handling_witness :
    (on_message ⟨[], 1, 10⟩ Env.ok SpamTracker.empty
      (plain_msg 1 2 "x") 0).effects.head? =
      some (Effect.attempt_purge 6 true) :=
  (C8_spam_error_handling ⟨[], 1, 10⟩ Env.ok SpamTracker.empty
      (plain_msg 1 2 "x") 0 (by decide) rfl (by decide)).1

/-- The identical count just after a spam-check update is at least one. -/
theorem identical_count_update_pos (r : MessageRecord) (c : String)
    (now cutoff : Int) :
    1 ≤ ((r.prune cutoff).add c now).identical_count c := by
  rw [identical_count_add_same]
  omega

/-- Claim C9: reachable-state invariant of the spam tracker: the empty
tracker satisfies it, and every fully handled message event (one whose
handling finished with no uncaught exception) preserves it: every entry
still present in the tracker holds strictly fewer than spam-threshold
identical messages of every content, because a count that reaches the
threshold deletes the whole entry within the same handling step. -/
theorem C9_tracker_invariant :
    (∀ threshold : Int, TrackerInv threshold SpamTracker.empty) ∧
    (∀ (cfg : ModConfig) (env : Env) (tracker : SpamTracker) (msg : Message)
      (now : Int),
      TrackerInv cfg.spam_threshold tracker →
      (on_message cfg env tracker msg now).uncaught = none →
      TrackerInv cfg.spam_threshold
        (on_message cfg env tracker msg now).tracker) := by
  constructor
  · intro threshold k hk
    exact absurd rfl hk
  · intro cfg env tracker msg now hinv hdone
    cases hexb : exempt msg with
    | true =>
      rw [on_message_exempt hexb]
      exact hinv
    | false =>
      rcases hwf : find_filter_word cfg.word_filter msg.content with _ | w
      · rw [on_message_spam_path hexb hwf] at hdone ⊢
        by_cases htr : cfg.spam_threshold ≤
            ((((tracker (msg.guild_id, msg.author_id)).prune
                (now - cfg.spam_interval)).add msg.content now).identical_count
              msg.content : Int)
        · rcases hse : (spam_side_effects env (cfg.spam_threshold + 5)).2 with _ | e
          · rw [handle_spam_detection_trigger_ok htr hse]
            intro k hk c
            simp only [SpamTracker.erase, SpamTracker.set] at hk ⊢
            by_cases hkey : k = (msg.guild_id, msg.author_id)
            · rw [if_pos hkey] at hk
              exact absurd rfl hk
            · simp only [if_neg hkey] at hk ⊢
              exact hinv k hk c
          · rw [handle_spam_detection_trigger_err htr hse] at hdone
            simp at hdone
        · rw [handle_spam_detection_no_trigger htr]
          intro k hk c
          simp only [SpamTracker.set] at hk ⊢
          by_cases hkey : k = (msg.guild_id, msg.author_id)
          · rw [if_pos hkey]
            have hpos := identical_count_update_pos
              (tracker (msg.guild_id, msg.author_id)) msg.content now
              (now - cfg.spam_interval)
            by_cases hc : c = msg.content
            · subst hc
              omega
            · rw [identical_count_add_ne _ _ _ _ (fun h => hc h.symm)]
              have hle := identical_count_prune_le
                (tracker (msg.guild_id, msg.author_id))
                (now - cfg.spam_interval) c
              by_cases hne : (tracker (msg.guild_id, msg.author_id)).messages = []
              · have hz : (tracker (msg.guild_id, msg.author_id)).identical_count c = 0 := by
                  unfold MessageRecord.identical_count
                  rw [hne]
                  rfl
                omega
              · have := hinv (msg.guild_id, msg.author_id) hne c
                omega
          · simp only [if_neg hkey] at hk ⊢
            exact hinv k hk c
      · rw [on_message_filter_path hexb hwf]
        exact hinv

/-- Witness for C9: the invariant transported across one fully handled
message from the empty tracker. -/
theorem C9_tracker_invariant_witness :
    TrackerInv 3 ((on_message ⟨[], 3, 10⟩ Env.ok SpamTracker.empty
      (plain_msg 1 2 "hi") 0).tracker) :=
  C9_tracker_invariant.2 ⟨[], 3, 10⟩ Env.ok SpamTracker.empty
    (plain_msg 1 2 "hi") 0 (C9_tracker_invariant.1 3) rfl

/-- A record holding only pairs with one fixed content, all inside the
window, keeps every entry through the prune and appends the new message. -/
theorem uniform_update (rts : List Int) (c : String) (now cutoff : Int)
    (hin : ∀ y ∈ rts, cutoff ≤ y) :
    ((⟨rts.map (fun u => (c, u))⟩ : MessageRecord).prune cutoff).add c now =
      ⟨(rts ++ [now]).map (fun u => (c, u))⟩ := by
  have hprune : (⟨rts.map (fun u => (c, u))⟩ : MessageRecord).prune cutoff =
      ⟨rts.map (fun u => (c, u))⟩ := by
    unfold MessageRecord.prune
    congr 1
    apply List.filter_eq_self.mpr
    intro p hp
    obtain ⟨u, hu, rfl⟩ := List.mem_map.mp hp
    simpa using hin u hu
  rw [hprune]
  unfold MessageRecord.add
  congr 1
  simp

/-- A record holding only pairs with one fixed content counts them all as
identical to that content. -/
theorem uniform_count (rts : List Int) (c : String) :
    (⟨rts.map (fun u => (c, u))⟩ : MessageRecord).identical_count c =
      rts.length := by
  unfold MessageRecord.identical_count
  simp only
  rw [List.countP_map]
  simp [Function.comp]

/-- Running a concatenation of event lists composes. -/
theorem run_append (cfg : ModConfig) (env : Env)
    (xs ys : List (Message × Int)) :
    ∀ tracker : SpamTracker,
      run cfg env tracker (xs ++ ys) =
        ((run cfg env (run cfg env tracker xs).1 ys).1,
         (run cfg env tracker xs).2 ++
           (run cfg env (run cfg env tracker xs).1 ys).2) := by
  induction xs with
  | nil =>
    intro tracker
    simp [run]
  | cons p rest ih =>
    intro tracker
    obtain ⟨msg, now⟩ := p
    simp [run, ih]

/-- Running a single event. -/
theorem run_singleton (cfg : ModConfig) (env : Env) (tracker : SpamTracker)
    (msg : Message) (now : Int) :
    run cfg env tracker [(msg, now)] =
      ((on_message cfg env tracker msg now).tracker,
       [(on_message cfg env tracker msg now).action]) := by
  simp [run]

/-- Accumulation: while the accumulated identical messages stay below the
threshold and all timestamps lie within the window of every later message,
the run decides no action and the tracker entry collects every pair in
order. -/
theorem run_identical_accumulate (cfg : ModConfig) (msg : Message)
    (hex : exempt msg = false)
    (hwf : find_filter_word cfg.word_filter msg.content = none) :
    ∀ (ts pts : List Int) (tracker : SpamTracker),
      (tracker (msg.guild_id, msg.author_id)).messages =
        pts.map (fun u => (msg.content, u)) →
      (∀ x ∈ ts, ∀ y ∈ pts ++ ts, x - y ≤ cfg.spam_interval) →
      ((pts.length : Int) + ts.length < cfg.spam_threshold) →
      (run cfg Env.ok tracker (ts.map (fun t => (msg, t)))).2 =
        List.replicate ts.length Action.none ∧
      ((run cfg Env.ok tracker (ts.map (fun t => (msg, t)))).1
          (msg.guild_id, msg.author_id)).messages =
        (pts ++ ts).map (fun u => (msg.content, u)) := by
  intro ts
  induction ts with
  | nil =>
    intro pts tracker hkey hW hlt
    constructor
    · simp [run]
    · simpa [run] using hkey
  | cons t rest ih =>
    intro pts tracker hkey hW hlt
    have hrec : tracker (msg.guild_id, msg.author_id) =
        ⟨pts.map (fun u => (msg.content, u))⟩ := by
      rw [← hkey]
    have hin : ∀ y ∈ pts, t - cfg.spam_interval ≤ y := by
      intro y hy
      have := hW t (List.mem_cons_self t rest) y (List.mem_append_left _ hy)
      omega
    have hupd : ((tracker (msg.guild_id, msg.author_id)).prune
        (t - cfg.spam_interval)).add msg.content t =
          ⟨(pts ++ [t]).map (fun u => (msg.content, u))⟩ := by
      rw [hrec]
      exact uniform_update pts msg.content t (t - cfg.spam_interval) hin
    have hcnt : (((tracker (msg.guild_id, msg.author_id)).prune
        (t - cfg.spam_interval)).add msg.content t).identical_count
          msg.content = pts.length + 1 := by
      rw [hupd, uniform_count]
      simp
    have hno : ¬ cfg.spam_threshold ≤
        ((((tracker (msg.guild_id, msg.author_id)).prune
            (t - cfg.spam_interval)).add msg.content t).identical_count
          msg.content : Int) := by
      rw [hcnt]
      simp only [List.length_cons] at hlt
      push_cast at hlt ⊢
      omega
    have hrecnew : ((tracker.set (msg.guild_id, msg.author_id)
        (((tracker (msg.guild_id, msg.author_id)).prune
          (t - cfg.spam_interval)).add msg.content t))
            (msg.guild_id, msg.author_id)).messages =
        (pts ++ [t]).map (fun u => (msg.content, u)) := by
      rw [tracker_set_same, hupd]
    have hW2 : ∀ x ∈ rest, ∀ y ∈ (pts ++ [t]) ++ rest,
        x - y ≤ cfg.spam_interval := by
      intro x hx y hy
      refine hW x (List.mem_cons_of_mem _ hx) y ?_
      simp only [List.append_assoc, List.singleton_append] at hy
      exact hy
    have hlt2 : (((pts ++ [t]).length : Int)) + rest.length <
        cfg.spam_threshold := by
      simp only [List.length_append, List.length_cons, List.length_nil]
        at hlt ⊢
      push_cast at hlt ⊢
      omega
    obtain ⟨ha, htr⟩ := ih (pts ++ [t])
      (tracker.set (msg.guild_id, msg.author_id)
        (((tracker (msg.guild_id, msg.author_id)).prune
          (t - cfg.spam_interval)).add msg.content t))
      hrecnew hW2 hlt2
    simp only [List.map_cons, run]
    rw [on_message_spam_path hex hwf, handle_spam_detection_no_trigger hno]
    constructor
    · simp only [List.length_cons, List.replicate_succ]
      rw [ha]
    · rw [htr]
      simp

/-- Trigger step: a message whose surviving identical predecessors number at
least threshold minus one fires the spam action in the clean environment
and empties the tracker entry. -/
theorem on_message_trigger_step (cfg : ModConfig) (msg : Message) (now : Int)
    (hex : exempt msg = false)
    (hwf : find_filter_word cfg.word_filter msg.content = none)
    (tracker : SpamTracker) (pts : List Int)
    (hkey : (tracker (msg.guild_id, msg.author_id)).messages =
      pts.map (fun u => (msg.content, u)))
    (hW : ∀ y ∈ pts, now - y ≤ cfg.spam_interval)
    (hge : cfg.spam_threshold ≤ (pts.length : Int) + 1) :
    (on_message cfg Env.ok tracker msg now).action = Action.spam_action ∧
    ((on_message cfg Env.ok tracker msg now).tracker
      (msg.guild_id, msg.author_id)).messages = [] := by
  have hrec : tracker (msg.guild_id, msg.author_id) =
      ⟨pts.map (fun u => (msg.content, u))⟩ := by
    rw [← hkey]
  have hin : ∀ y ∈ pts, now - cfg.spam_interval ≤ y := by
    intro y hy
    have := hW y hy
    omega
  have hupd : ((tracker (msg.guild_id, msg.author_id)).prune
      (now - cfg.spam_interval)).add msg.content now =
        ⟨(pts ++ [now]).map (fun u => (msg.content, u))⟩ := by
    rw [hrec]
    exact uniform_update pts msg.content now (now - cfg.spam_interval) hin
  have hcnt : (((tracker (msg.guild_id, msg.author_id)).prune
      (now - cfg.spam_interval)).add msg.content now).identical_count
        msg.content = pts.length + 1 := by
    rw [hupd, uniform_count]
    simp
  have htr : cfg.spam_threshold ≤
      ((((tracker (msg.guild_id, msg.author_id)).prune
          (now - cfg.spam_interval)).add msg.content now).identical_count
        msg.content : Int) := by
    rw [hcnt]
    push_cast
    exact hge
  have hok : (spam_side_effects Env.ok (cfg.spam_threshold + 5)).2 = none := rfl
  rw [on_message_spam_path hex hwf, handle_spam_detection_trigger_ok htr hok]
  refine ⟨rfl, ?_⟩
  simp [SpamTracker.erase, SpamTracker.set, MessageRecord.empty]

/-- Claim C1: with spam threshold N and window W, a single author sending
the identical content N times within W seconds triggers exactly one spam
action — no action on each of the first N-1 messages, the spam action on
the N-th — the tracker entry for that guild and author is empty immediately
afterwards, and after the reset no spam action fires again until N more
identical messages accumulate within the window. -/
theorem C1_threshold_trigger (cfg : ModConfig) (msg : Message)
    (hex : exempt msg = false)
    (hwf : find_filter_word cfg.word_filter msg.content = none)
    (N : Nat) (hN : 1 ≤ N) (hth : cfg.spam_threshold = (N : Int))
    (ts : List Int) (hlen : ts.length = N)
    (hW : ∀ x ∈ ts, ∀ y ∈ ts, x - y ≤ cfg.spam_interval) :
    (run cfg Env.ok SpamTracker.empty (ts.map (fun t => (msg, t)))).2 =
      List.replicate (N - 1) Action.none ++ [Action.spam_action] ∧
    ((run cfg Env.ok SpamTracker.empty (ts.map (fun t => (msg, t)))).1
        (msg.guild_id, msg.author_id)).messages = [] ∧
    (∀ us : List Int, us.length < N →
      (∀ x ∈ us, ∀ y ∈ us, x - y ≤ cfg.spam_interval) →
      Action.spam_action ∉
        (run cfg Env.ok
          (run cfg Env.ok SpamTracker.empty (ts.map (fun t => (msg, t)))).1
          (us.map (fun t => (msg, t)))).2) := by
  have hne : ts ≠ [] := by
    intro h
    rw [h] at hlen
    simp at hlen
    omega
  have hfrontsub : ∀ x ∈ ts.dropLast, x ∈ ts := fun x hx =>
    (List.dropLast_sublist ts).subset hx
  have hfront : ∀ x ∈ ts.dropLast, ∀ y ∈ ([] : List Int) ++ ts.dropLast,
      x - y ≤ cfg.spam_interval := by
    intro x hx y hy
    exact hW x (hfrontsub x hx) y (hfrontsub y (by simpa using hy))
  have hlt1 : ((([] : List Int).length : Int)) + (ts.dropLast).length <
      cfg.spam_threshold := by
    rw [hth, List.length_dropLast, hlen]
    simp only [List.length_nil, Nat.cast_zero, zero_add]
    omega
  obtain ⟨hact1, htrk1⟩ := run_identical_accumulate cfg msg hex hwf
    ts.dropLast [] SpamTracker.empty rfl hfront hlt1
  rw [List.nil_append] at htrk1
  have hW0 : ∀ y ∈ ts.dropLast, ts.getLast hne - y ≤ cfg.spam_interval :=
    fun y hy => hW _ (List.getLast_mem hne) y (hfrontsub y hy)
  have hge : cfg.spam_threshold ≤ ((ts.dropLast.length : Int)) + 1 := by
    rw [hth, List.length_dropLast, hlen]
    omega
  obtain ⟨hact2, htrk2⟩ := on_message_trigger_step cfg msg (ts.getLast hne)
    hex hwf
    (run cfg Env.ok SpamTracker.empty
      (ts.dropLast.map (fun t => (msg, t)))).1
    ts.dropLast htrk1 hW0 hge
  have hsplit2 : ts.map (fun t => (msg, t)) =
      ts.dropLast.map (fun t => (msg, t)) ++ [(msg, ts.getLast hne)] := by
    conv_lhs => rw [← List.dropLast_concat_getLast hne]
    simp
  rw [hsplit2, run_append, run_singleton]
  refine ⟨?_, ?_, ?_⟩
  · dsimp only
    rw [hact1, hact2, List.length_dropLast, hlen]
  · dsimp only
    exact htrk2
  · intro us hus hWus
    dsimp only
    have hlt3 : ((([] : List Int).length : Int)) + us.length <
        cfg.spam_threshold := by
      rw [hth]
      simp only [List.length_nil, Nat.cast_zero, zero_add]
      exact_mod_cast hus
    obtain ⟨hact3, _⟩ := run_identical_accumulate cfg msg hex hwf
      us []
      (on_message cfg Env.ok
        (run cfg Env.ok SpamTracker.empty
          (ts.dropLast.map (fun t => (msg, t)))).1 msg (ts.getLast hne)).tracker
      htrk2 (by intro x hx y hy; exact hWus x hx y (by simpa using hy)) hlt3
    rw [hact3]
    simp [List.mem_replicate]

/-- Witness for C1, matching Scenario A of the spec: threshold 3, interval
10, identical content at times 0, 2, 4: no action, no action, spam action,
and the tracker entry is empty afterwards. -/
theorem C1_threshold_trigger_witness :
    (run ⟨[], 3, 10⟩ Env.ok SpamTracker.empty
      [(plain_msg 1 2 "hi", 0), (plain_msg 1 2 "hi", 2),
       (plain_msg 1 2 "hi", 4)]).2 =
      [Action.none, Action.none, Action.spam_action] ∧
    ((run ⟨[], 3, 10⟩ Env.ok SpamTracker.empty
      [(plain_msg 1 2 "hi", 0), (plain_msg 1 2 "hi", 2),
       (plain_msg 1 2 "hi", 4)]).1 (1, 2)).messages = [] := by
  have h := C1_threshold_trigger ⟨[], 3, 10⟩ (plain_msg 1 2 "hi")
    (by decide) rfl 3 (by omega) rfl [0, 2, 4] rfl (by decide)
  exact ⟨h.1, h.2.1⟩

end DiscordBot
